import Mathlib

/-!
Shallow embedding of the `imgop-vips` image-optimizer service.

The repository is a Go serverless function with two evolving variants of the
`Optimize` pipeline and of parameter validation.  The pure logic (scale
arithmetic, magic-number sniffing, content-type check, validation, origin-list
initialization, response shaping) is translated directly from the Go source.
Effectful collaborators (Go's `url.Parse`, the HTTP client, and the native
libvips decode/encode) are modelled as oracles supplied in an environment
record, and the network activity of a run is recorded as an explicit event
trace.  Go `float64` scale arithmetic is modelled with exact rationals `ℚ`;
Go `int` parameters are modelled as `ℤ`; byte slices as `List Nat`.
-/

namespace ImgOp

/-- A decoded image as exposed by the native library: its pixel dimensions. -/
structure Image where
  width : Nat
  height : Nat
  deriving Repr, DecidableEq

/-- Result of Go `url.Parse` on success: the `Host` component and the
re-serialized full URL (`imageUrl.String()`) used for the GET. -/
structure UrlParts where
  host : String
  full : String
  deriving Repr, DecidableEq

/-- An HTTP response: status code, `Content-Type` header value, body bytes. -/
structure HttpResp where
  status : Nat
  contentType : String
  body : List Nat
  deriving Repr, DecidableEq

/-- `ParamsOptimize` from the Go source: url, width, height, quality.
Width/height/quality are Go `int`, modelled as `ℤ`. -/
structure ParamsOptimize where
  url : String
  width : Int
  height : Int
  quality : Int
  deriving Repr, DecidableEq

/-- Oracles for the effectful collaborators of `Optimize`:
`parseUrl` models Go `url.Parse` (`none` = parse error); `buildReq` models
`http.NewRequestWithContext` succeeding; `fetch` models the HTTP GET
(`none` = network error or timeout); `decode` models
`vips.NewImageFromSource` (`none` = decode error); `encode` models
`image.WebpsaveBuffer` at a given quality (`none` = encode error). -/
structure Env where
  parseUrl : String → Option UrlParts
  buildReq : String → Bool
  fetch : String → Option HttpResp
  decode : List Nat → Option Image
  encode : Image → Int → Option (List Nat)

/-- Observable effects of a run: `fetchEv url` records that the HTTP GET was
issued; `decodeEv` that a decode was attempted; `encodeEv` that an encode was
attempted. -/
inductive Event where
  | fetchEv (url : String)
  | decodeEv
  | encodeEv
  deriving Repr, DecidableEq

/-- The scale computation of `Optimize` (identical in every variant of the
source): a `switch` over the requested width/height with default scale `1.0`.
Go `float64` division is modelled as exact division in `ℚ`. -/
def computeScale (origW origH : Nat) (reqW reqH : Int) : ℚ :=
  if 0 < reqW ∧ reqH = 0 then (reqW : ℚ) / (origW : ℚ)
  else if 0 < reqH ∧ reqW = 0 then (reqH : ℚ) / (origH : ℚ)
  else if 0 < reqW ∧ 0 < reqH then
    min ((reqW : ℚ) / (origW : ℚ)) ((reqH : ℚ) / (origH : ℚ))
  else 1

/-- Model of the external native library's uniform resize
(`image.Resize(scale, nil)`): the same scale factor is applied to both axes
and each resulting dimension is rounded to the nearest integer.  The pixel
resampling itself is opaque; only the dimensions are modelled. -/
def vipsResize (img : Image) (scale : ℚ) : Image :=
  ⟨(round ((img.width : ℚ) * scale)).toNat,
   (round ((img.height : ℚ) * scale)).toNat⟩

/-- The decode → compute-scale → resize stage shared by all `Optimize`
variants, lines 758-779 of the libs variant. -/
def optimizedImage (img : Image) (p : ParamsOptimize) : Image :=
  vipsResize img (computeScale img.width img.height p.width p.height)

/-- The fixed allow-list of `src/image-optimizer.go` (package-level
`allowedOrigins`). -/
def srcAllowedOrigins : List String :=
  ["tarkams.com", "s.tarkams.com", "staging-files.tarkams.com",
   "lh3.googleusercontent.com"]

/-- `Optimize` of `src/image-optimizer.go` (identical to the second libs
variant): parse the URL, reject a host outside the allow-list, GET the URL,
decode, resize by the computed scale, encode to WebP.  Every failure returns
the empty byte slice.  The allow-list is a package-level variable, modelled
as the `allowed` parameter.  Returns the event trace together with the
resulting bytes. -/
def optimizeSrc (allowed : List String) (env : Env) (p : ParamsOptimize) :
    List Event × List Nat :=
  match env.parseUrl p.url with
  | none => ([], [])
  | some u =>
    if u.host ∉ allowed then ([], [])
    else
      match env.fetch u.full with
      | none => ([Event.fetchEv u.full], [])
      | some resp =>
        match env.decode resp.body with
        | none => ([Event.fetchEv u.full, Event.decodeEv], [])
        | some img =>
          match env.encode (optimizedImage img p) p.quality with
          | none =>
            ([Event.fetchEv u.full, Event.decodeEv, Event.encodeEv], [])
          | some bytes =>
            ([Event.fetchEv u.full, Event.decodeEv, Event.encodeEv], bytes)

/-- Whitespace as recognized by Go's `strings.TrimSpace`, restricted to the
ASCII space characters relevant to HTTP header values. -/
def isSpaceChar (c : Char) : Bool :=
  c = ' ' ∨ c = '\t' ∨ c = '\n' ∨ c = '\r'

/-- Model of Go `strings.TrimSpace`: drop leading and trailing whitespace. -/
def strTrim (s : String) : String :=
  ((s.toList.dropWhile isSpaceChar).reverse.dropWhile isSpaceChar).reverse
    |>.asString

/-- ASCII lowercase conversion of a character, as Go `strings.ToLower` acts
on the ASCII range of header values. -/
def charToLower (c : Char) : Char :=
  if 'A' ≤ c ∧ c ≤ 'Z' then Char.ofNat (c.toNat + 32) else c

/-- Model of Go `strings.ToLower`. -/
def strToLower (s : String) : String :=
  (s.toList.map charToLower).asString

/-- Model of Go `strings.Split` with a one-character separator: splitting
the empty string yields `[""]`, and a trailing separator yields a trailing
empty field, exactly as in Go. -/
def splitOnChar (sep : Char) : List Char → List (List Char)
  | [] => [[]]
  | c :: cs =>
    if c = sep then [] :: splitOnChar sep cs
    else
      match splitOnChar sep cs with
      | [] => [[c]]
      | g :: gs => (c :: g) :: gs

/-- String form of `splitOnChar`. -/
def strSplitOn (s : String) (sep : Char) : List String :=
  (splitOnChar sep s.toList).map List.asString

/-- Model of Go `strings.HasPrefix`. -/
def strStartsWith (s pre : String) : Bool :=
  pre.toList.isPrefixOf s.toList

/-- `isImageContentType` from the libs variant: lowercase, trim, strip
parameters after the first `;`, re-trim, and require the `image/` prefix.
Go `strings.Split` on a non-empty separator never returns an empty slice,
so `parts[0]` is modelled with `headD`. -/
def isImageContentType (contentType : String) : Bool :=
  let ct := strTrim (strToLower contentType)
  if ct = "" then false
  else
    let ct2 := strTrim ((strSplitOn ct ';').headD "")
    strStartsWith ct2 "image/"

/-- `isImageFileSignature` from the libs variant: the fixed magic-number
table (JPEG, PNG, GIF, WebP, BMP, TIFF, HEIC/HEIF).  Indexing `data[i]`
is modelled with `getD` — every access is guarded by the same length check
as in the source.  For HEIC/HEIF the brand is the 4-byte slice
`data[8:12]`; Go's `strings.Contains` of a 4-byte haystack with a
4-character needle is equality on those 4 bytes. -/
def isImageFileSignature (data : List Nat) : Bool :=
  if data.length < 4 then false
  else if 3 ≤ data.length ∧ data.getD 0 0 = 0xFF ∧ data.getD 1 0 = 0xD8 ∧
      data.getD 2 0 = 0xFF then true
  else if 4 ≤ data.length ∧ data.getD 0 0 = 0x89 ∧ data.getD 1 0 = 0x50 ∧
      data.getD 2 0 = 0x4E ∧ data.getD 3 0 = 0x47 then true
  else if 4 ≤ data.length ∧ data.getD 0 0 = 0x47 ∧ data.getD 1 0 = 0x49 ∧
      data.getD 2 0 = 0x46 ∧ data.getD 3 0 = 0x38 then true
  else if 12 ≤ data.length ∧
      data.getD 0 0 = 0x52 ∧ data.getD 1 0 = 0x49 ∧
      data.getD 2 0 = 0x46 ∧ data.getD 3 0 = 0x46 ∧
      data.getD 8 0 = 0x57 ∧ data.getD 9 0 = 0x45 ∧
      data.getD 10 0 = 0x42 ∧ data.getD 11 0 = 0x50 then true
  else if 2 ≤ data.length ∧ data.getD 0 0 = 0x42 ∧ data.getD 1 0 = 0x4D then
    true
  else if 4 ≤ data.length ∧
      ((data.getD 0 0 = 0x49 ∧ data.getD 1 0 = 0x49 ∧
        data.getD 2 0 = 0x2A ∧ data.getD 3 0 = 0x00) ∨
       (data.getD 0 0 = 0x4D ∧ data.getD 1 0 = 0x4D ∧
        data.getD 2 0 = 0x00 ∧ data.getD 3 0 = 0x2A)) then true
  else if 8 ≤ data.length ∧ data.getD 4 0 = 0x66 ∧ data.getD 5 0 = 0x74 ∧
      data.getD 6 0 = 0x79 ∧ data.getD 7 0 = 0x70 then
    if 12 ≤ data.length ∧
        ((data.drop 8).take 4 = [0x68, 0x65, 0x69, 0x63] ∨
         (data.drop 8).take 4 = [0x68, 0x65, 0x69, 0x66] ∨
         (data.drop 8).take 4 = [0x6D, 0x69, 0x66, 0x31]) then true
    else false
  else false

/-- `validateImageFile` from the libs variant: check the content type, peek
up to 12 leading bytes of the body, check the magic-number table on the
peek, and on success reattach the peek in front of the remaining stream
(`io.MultiReader`), returning the reconstructed body.  The single
`resp.Body.Read(peekBuffer)` is modelled as yielding the full available
prefix, `min 12 (body length)` bytes. -/
def validateImageFile (resp : HttpResp) : Option (List Nat) :=
  if ¬ isImageContentType resp.contentType then none
  else if ¬ isImageFileSignature (resp.body.take 12) then none
  else some (resp.body.take 12 ++ resp.body.drop 12)

/-- `Optimize` of the first libs variant (part_002 lines 704-792): parse the
URL, build a GET request with a timeout context, execute it, reject a
non-200 status, validate content type and magic numbers, then decode,
resize and encode.  Network errors and timeouts are both surfaced as
`fetch = none`.  Every failure returns the empty byte slice and nothing is
ever retried.  This variant performs no origin check itself (its handler
checks `IsAllowedOrigin` beforehand). -/
def optimizeLibs (env : Env) (p : ParamsOptimize) : List Event × List Nat :=
  match env.parseUrl p.url with
  | none => ([], [])
  | some u =>
    if ¬ env.buildReq u.full then ([], [])
    else
      match env.fetch u.full with
      | none => ([Event.fetchEv u.full], [])
      | some resp =>
        if resp.status ≠ 200 then ([Event.fetchEv u.full], [])
        else
          match validateImageFile resp with
          | none => ([Event.fetchEv u.full], [])
          | some body =>
            match env.decode body with
            | none => ([Event.fetchEv u.full, Event.decodeEv], [])
            | some img =>
              match env.encode (optimizedImage img p) p.quality with
              | none =>
                ([Event.fetchEv u.full, Event.decodeEv, Event.encodeEv], [])
              | some bytes =>
                ([Event.fetchEv u.full, Event.decodeEv, Event.encodeEv],
                 bytes)

/-- `validateParams` from `src/main.go`: width, height and quality must each
lie in `[1, max]` (max 1800 by default for width/height, 100 for quality);
the first violated field produces its range error.  `maxW`/`maxH` are
`appEnv.MAX_WIDTH`/`MAX_HEIGHT`. -/
def srcValidateParams (maxW maxH : Int) (p : ParamsOptimize) :
    Except String ParamsOptimize :=
  if p.width < 1 ∨ p.width > maxW then
    .error ("width must be between 1 and " ++ toString maxW)
  else if p.height < 1 ∨ p.height > maxH then
    .error ("height must be between 1 and " ++ toString maxH)
  else if p.quality < 1 ∨ p.quality > 100 then
    .error "quality must be between 1 and 100"
  else .ok p

/-- `ValidateParams` from the helpers variant (part_003): width, height and
quality must each lie in `[0, max]` — zero is permitted on every field —
and the range errors name `0` as the lower bound. -/
def helpersValidateParams (maxW maxH : Int) (p : ParamsOptimize) :
    Except String ParamsOptimize :=
  if p.width < 0 ∨ p.width > maxW then
    .error ("width must be between 0 and " ++ toString maxW)
  else if p.height < 0 ∨ p.height > maxH then
    .error ("height must be between 0 and " ++ toString maxH)
  else if p.quality < 0 ∨ p.quality > 100 then
    .error ("quality must be between 0 and 100")
  else .ok p

/-- The default entry of the libs variant's allow-list. -/
def defaultOrigin : String := "lh3.googleusercontent.com"

/-- Loop body of the `init` of the second libs variant (part_002 lines
914-932): trim the token and append it unless it is empty or already
present (`slices.Contains` is exact membership). -/
def originStep (acc : List String) (origin : String) : List String :=
  if strTrim origin ≠ "" ∧ strTrim origin ∉ acc then acc ++ [strTrim origin]
  else acc

/-- The `init` of the second libs variant: start from the fixed default
entry; if the `ALLOWED_ORIGINS` environment value is non-empty, split it on
commas and fold the append-if-new step over the tokens. -/
def libsInitOrigins (envOrigins : String) : List String :=
  if envOrigins = "" then [defaultOrigin]
  else (strSplitOn envOrigins ',').foldl originStep [defaultOrigin]

/-- `AddAllowedOrigin` from the second libs variant: append a non-empty,
not-yet-present origin (`slices.Contains` is exact membership). -/
def addAllowedOrigin (origins : List String) (origin : String) :
    List String :=
  if origin ≠ "" ∧ origin ∉ origins then origins ++ [origin]
  else origins

/-- The `ALLOWED_ORIGINS` initialization of `helpers/env-helper.go`
(`GetAppEnv`): split the environment value on commas, then `range` over
that slice and append each trimmed non-empty token back onto the same
slice.  Go's `range` iterates over the slice as it was when the loop
started, so the result is the raw split tokens followed by the trimmed
non-empty ones; there is no default entry and no duplicate skipping. -/
def getAppEnvOrigins (envOrigins : String) : List String :=
  if envOrigins = "" then []
  else
    let raw := strSplitOn envOrigins ','
    raw ++ (raw.map strTrim).filter (fun t => t ≠ "")

/-- `IsAllowedOrigin` from the helpers variant: parse the URL and test the
host for exact membership in the configured list. -/
def isAllowedOrigin (parseUrl : String → Option UrlParts)
    (allowed : List String) (urlParam : String) : Bool :=
  match parseUrl urlParam with
  | none => false
  | some u => decide (u.host ∈ allowed)

/-- The standard base64 alphabet of Go's `encoding/base64.StdEncoding`. -/
def base64Alphabet : List Char :=
  "ABCDEFGHIJKLMNOPQRSTUVWXYZabcdefghijklmnopqrstuvwxyz0123456789+/".toList

/-- Model of `base64.StdEncoding.EncodeToString`: encode 3-byte groups into
4 alphabet characters, padding the final partial group with `=`. -/
def base64EncodeAux : List Nat → List Char
  | [] => []
  | [a] =>
    [base64Alphabet.getD (a / 4 % 64) 'A',
     base64Alphabet.getD (a % 4 * 16) 'A', '=', '=']
  | [a, b] =>
    [base64Alphabet.getD (a / 4 % 64) 'A',
     base64Alphabet.getD ((a % 4 * 16 + b / 16) % 64) 'A',
     base64Alphabet.getD (b % 16 * 4 % 64) 'A', '=']
  | a :: b :: c :: rest =>
    base64Alphabet.getD (a / 4 % 64) 'A' ::
    base64Alphabet.getD ((a % 4 * 16 + b / 16) % 64) 'A' ::
    base64Alphabet.getD ((b % 16 * 4 + c / 64) % 64) 'A' ::
    base64Alphabet.getD (c % 64) 'A' :: base64EncodeAux rest

/-- String form of the base64 encoding. -/
def base64Encode (bytes : List Nat) : String :=
  String.mk (base64EncodeAux bytes)

/-- A gateway response, flattened to the fields the handlers set.  A handler
that sets no `Cache-Control` header is modelled with `cacheControl = ""`. -/
structure GatewayResponse where
  statusCode : Nat
  body : String
  isBase64Encoded : Bool
  contentType : String
  cacheControl : String
  deriving Repr, DecidableEq

/-- The success tail of the `src/main.go` handler (lines 67-78): whatever
bytes `Optimize` returned — empty or not — are base64-encoded and returned
with status 200, `image/webp`, and one-year cache headers. -/
def srcHandlerRespond (imageBytes : List Nat) : GatewayResponse :=
  { statusCode := 200
    body := base64Encode imageBytes
    isBase64Encoded := true
    contentType := "image/webp"
    cacheControl := "public, max-age=31536000, s-maxage=31536000" }

/-- The response tail of the part_005 handler (lines 63-84): an empty byte
slice from `Optimize` is mapped to a 400 JSON error; otherwise the bytes are
base64-encoded and returned with status 200. -/
def part005HandlerRespond (imageBytes : List Nat) : GatewayResponse :=
  if imageBytes.length = 0 then
    { statusCode := 400
      body :=
        "\x7b\"error\": \"Failed to optimize image. Check URL and allowed origins.\"\x7d"
      isBase64Encoded := false
      contentType := "application/json"
      cacheControl := "" }
  else
    { statusCode := 200
      body := base64Encode imageBytes
      isBase64Encoded := true
      contentType := "image/webp"
      cacheControl := "public, max-age=31536000" }

end ImgOp

namespace ImgOp

/-- round of a rational bounded by an integer is bounded by that integer. -/
lemma round_le_int {x : ℚ} {n : ℤ} (h : x ≤ n) : round x ≤ n := by
  rw [round_eq]
  have hlt : x + 1 / 2 < ((n + 1 : ℤ) : ℚ) := by push_cast; linarith
  have := Int.floor_lt.mpr hlt
  omega

/-- multiplying back the width-driven scale recovers the request exactly. -/
lemma scale_mul_cancel (W : ℕ) (w : ℤ) (hW : 0 < W) :
    (W : ℚ) * ((w : ℚ) / (W : ℚ)) = (w : ℚ) := by
  have hne : (W : ℚ) ≠ 0 := by positivity
  field_simp

/-- C1: for every request whose URL parses but whose host is not in the
allow-list, `Optimize` returns the constant empty result `([], [])` — no
fetch event is emitted (no network access) and the value is the same for
every such request (deterministic). -/
theorem optimizeSrc_disallowed_origin (allowed : List String) (env : Env)
    (p : ParamsOptimize) (u : UrlParts)
    (hparse : env.parseUrl p.url = some u) (hhost : u.host ∉ allowed) :
    optimizeSrc allowed env p = ([], []) := by
  unfold optimizeSrc
  rw [hparse]
  simp [hhost]

/-- C1 witness -/
theorem optimizeSrc_disallowed_origin_witness :
    optimizeSrc srcAllowedOrigins
      { parseUrl := fun s => some ⟨"evil.example", s⟩
        buildReq := fun _ => true
        fetch := fun _ => some ⟨200, "image/png", []⟩
        decode := fun _ => none
        encode := fun _ _ => none }
      ⟨"http://evil.example/a.png", 10, 0, 80⟩ = ([], []) :=
  optimizeSrc_disallowed_origin _ _ _
    ⟨"evil.example", "http://evil.example/a.png"⟩ rfl (by decide)

/-- C2: the scale computed by `Optimize` is `w/W` when `w>0, h=0`, `h/H`
when `h>0, w=0`, `min (w/W) (h/H)` when both are positive, and `1` when
both are zero; the resize applies the single scale to both axes, so for
`w>0, h=0` the output width is exactly `w` and the output height is `H`
scaled by the same factor `w/W` — proportional to the source aspect ratio
before rounding. -/
theorem computeScale_cases (W H : ℕ) (w h : ℤ) (hW : 0 < W) (_hH : 0 < H) :
    (0 < w ∧ h = 0 → computeScale W H w h = (w : ℚ) / (W : ℚ)) ∧
    (0 < h ∧ w = 0 → computeScale W H w h = (h : ℚ) / (H : ℚ)) ∧
    (0 < w ∧ 0 < h →
      computeScale W H w h =
        min ((w : ℚ) / (W : ℚ)) ((h : ℚ) / (H : ℚ))) ∧
    (w = 0 ∧ h = 0 → computeScale W H w h = 1) ∧
    (vipsResize ⟨W, H⟩ (computeScale W H w h) =
      ⟨(round ((W : ℚ) * computeScale W H w h)).toNat,
       (round ((H : ℚ) * computeScale W H w h)).toNat⟩) ∧
    (0 < w ∧ h = 0 →
      ((vipsResize ⟨W, H⟩ (computeScale W H w h)).width : ℤ) = w ∧
      (vipsResize ⟨W, H⟩ (computeScale W H w h)).height =
        (round ((H : ℚ) * ((w : ℚ) / (W : ℚ)))).toNat ∧
      (H : ℚ) * ((w : ℚ) / (W : ℚ)) / (w : ℚ) = (H : ℚ) / (W : ℚ)) := by
  refine ⟨?_, ?_, ?_, ?_, rfl, ?_⟩
  · rintro ⟨hw, hh⟩
    simp [computeScale, hw, hh]
  · rintro ⟨hh, hw⟩
    simp [computeScale, hw, hh, hh.not_lt]
  · rintro ⟨hw, hh⟩
    simp [computeScale, hw, hh, hw.ne', hh.ne']
  · rintro ⟨hw, hh⟩
    simp [computeScale, hw, hh]
  · rintro ⟨hw, hh⟩
    have hsc : computeScale W H w h = (w : ℚ) / (W : ℚ) := by
      simp [computeScale, hw, hh]
    refine ⟨?_, ?_, ?_⟩
    · show ((round ((W : ℚ) * computeScale W H w h)).toNat : ℤ) = w
      rw [hsc, scale_mul_cancel W w hW, round_intCast,
        Int.toNat_of_nonneg hw.le]
    · show (round ((H : ℚ) * computeScale W H w h)).toNat = _
      rw [hsc]
    · have hwne : (w : ℚ) ≠ 0 := by
        exact_mod_cast hw.ne'
      have hWne : (W : ℚ) ≠ 0 := by positivity
      field_simp
      ring

/-- C2 witness -/
theorem computeScale_cases_witness :
    computeScale 1600 1200 800 0 = (800 : ℚ) / (1600 : ℚ) ∧
    ((vipsResize ⟨1600, 1200⟩ (computeScale 1600 1200 800 0)).width : ℤ) =
      800 :=
  ⟨(computeScale_cases 1600 1200 800 0 (by decide) (by decide)).1
      ⟨by decide, rfl⟩,
   ((computeScale_cases 1600 1200 800 0 (by decide)
      (by decide)).2.2.2.2.2 ⟨by decide, rfl⟩).1⟩

/-- C3: for `w>0, h>0` the contain-fit output has width at most `w`,
height at most `h`, and at least one output dimension exactly equals its
bound; concretely, a 1600x1200 source yields 800x600 for `w=800, h=600`,
800x600 for `w=800, h=0`, and 1600x1200 unchanged for `w=0, h=0`. -/
theorem vipsResize_contain_fit (W H : ℕ) (w h : ℤ)
    (hW : 0 < W) (hH : 0 < H) (hw : 0 < w) (hh : 0 < h) :
    (((vipsResize ⟨W, H⟩ (computeScale W H w h)).width : ℤ) ≤ w ∧
     ((vipsResize ⟨W, H⟩ (computeScale W H w h)).height : ℤ) ≤ h ∧
     (((vipsResize ⟨W, H⟩ (computeScale W H w h)).width : ℤ) = w ∨
      ((vipsResize ⟨W, H⟩ (computeScale W H w h)).height : ℤ) = h)) ∧
    vipsResize ⟨1600, 1200⟩ (computeScale 1600 1200 800 600) = ⟨800, 600⟩ ∧
    vipsResize ⟨1600, 1200⟩ (computeScale 1600 1200 800 0) = ⟨800, 600⟩ ∧
    vipsResize ⟨1600, 1200⟩ (computeScale 1600 1200 0 0) = ⟨1600, 1200⟩ := by
  have hWne : (W : ℚ) ≠ 0 := by positivity
  have hHne : (H : ℚ) ≠ 0 := by positivity
  have hsc : computeScale W H w h =
      min ((w : ℚ) / (W : ℚ)) ((h : ℚ) / (H : ℚ)) := by
    simp [computeScale, hw, hh, hw.ne', hh.ne']
  constructor
  · rw [hsc]
    set s := min ((w : ℚ) / (W : ℚ)) ((h : ℚ) / (H : ℚ)) with hs
    have hsW : s ≤ (w : ℚ) / (W : ℚ) := min_le_left _ _
    have hsH : s ≤ (h : ℚ) / (H : ℚ) := min_le_right _ _
    have hbw : (W : ℚ) * s ≤ (w : ℚ) := by
      calc (W : ℚ) * s ≤ (W : ℚ) * ((w : ℚ) / (W : ℚ)) := by
            apply mul_le_mul_of_nonneg_left hsW (by positivity)
        _ = (w : ℚ) := scale_mul_cancel W w hW
    have hbh : (H : ℚ) * s ≤ (h : ℚ) := by
      calc (H : ℚ) * s ≤ (H : ℚ) * ((h : ℚ) / (H : ℚ)) := by
            apply mul_le_mul_of_nonneg_left hsH (by positivity)
        _ = (h : ℚ) := scale_mul_cancel H h hH
    have hrw : round ((W : ℚ) * s) ≤ w := round_le_int (by exact_mod_cast hbw)
    have hrh : round ((H : ℚ) * s) ≤ h := round_le_int (by exact_mod_cast hbh)
    refine ⟨?_, ?_, ?_⟩
    · show ((round ((W : ℚ) * s)).toNat : ℤ) ≤ w
      omega
    · show ((round ((H : ℚ) * s)).toNat : ℤ) ≤ h
      omega
    · rcases min_cases ((w : ℚ) / (W : ℚ)) ((h : ℚ) / (H : ℚ)) with
        ⟨heq, _⟩ | ⟨heq, _⟩
      · left
        show ((round ((W : ℚ) * s)).toNat : ℤ) = w
        rw [hs, heq, scale_mul_cancel W w hW, round_intCast,
          Int.toNat_of_nonneg hw.le]
      · right
        show ((round ((H : ℚ) * s)).toNat : ℤ) = h
        rw [hs, heq, scale_mul_cancel H h hH, round_intCast,
          Int.toNat_of_nonneg hh.le]
  · refine ⟨?_, ?_, ?_⟩ <;>
    · show Image.mk _ _ = _
      rw [Image.mk.injEq]
      norm_num [vipsResize, computeScale, round_eq]
      decide

/-- C3 witness -/
theorem vipsResize_contain_fit_witness :
    ((vipsResize ⟨1600, 1200⟩ (computeScale 1600 1200 800 600)).width : ℤ) ≤
      800 ∧
    vipsResize ⟨1600, 1200⟩ (computeScale 1600 1200 800 600) = ⟨800, 600⟩ :=
  ⟨(vipsResize_contain_fit 1600 1200 800 600 (by decide) (by decide)
      (by decide) (by decide)).1.1,
   (vipsResize_contain_fit 1600 1200 800 600 (by decide) (by decide)
      (by decide) (by decide)).2.1⟩

end ImgOp

namespace ImgOp

/-- C4 counterexample: the `src/main.go` validator rejects width 0 even with
a valid quality and URL, so "validation permits width and height both zero"
fails on that variant. -/
theorem srcValidateParams_zero_rejected :
    srcValidateParams 1800 1800
      ⟨"http://lh3.googleusercontent.com/img.png", 0, 0, 80⟩ =
      .error "width must be between 1 and 1800" := rfl

/-- C4 (amended): in the helpers variant (`ValidateParams`, part_003),
width and height both zero pass validation for every quality in `[1,100]`
and any URL, for any non-negative configured maxima. -/
theorem helpersValidateParams_zero_ok (maxW maxH q : ℤ) (url : String)
    (hW : 0 ≤ maxW) (hH : 0 ≤ maxH) (h1 : 1 ≤ q) (h2 : q ≤ 100) :
    helpersValidateParams maxW maxH ⟨url, 0, 0, q⟩ = .ok ⟨url, 0, 0, q⟩ := by
  unfold helpersValidateParams
  rw [if_neg (by simp; omega), if_neg (by simp; omega),
    if_neg (by simp; omega)]

/-- C4 witness -/
theorem helpersValidateParams_zero_ok_witness :
    helpersValidateParams 1800 1800 ⟨"u", 0, 0, 80⟩ =
      .ok ⟨"u", 0, 0, 80⟩ :=
  helpersValidateParams_zero_ok 1800 1800 80 "u" (by decide) (by decide)
    (by decide) (by decide)

/-- C5 counterexample: the helpers variant (`ValidateParams`, part_003)
accepts quality 0, which is outside `[1,100]`, and its range error names
`0 and 100`, not `1 to 100`. -/
theorem helpersValidateParams_quality_zero_accepted :
    helpersValidateParams 1800 1800 ⟨"u", 100, 100, 0⟩ =
      .ok ⟨"u", 100, 100, 0⟩ ∧
    helpersValidateParams 1800 1800 ⟨"u", 100, 100, -1⟩ =
      .error "quality must be between 0 and 100" := ⟨rfl, rfl⟩

/-- C5 (amended): in the `src/main.go` variant, with width and height in
range, any quality outside `[1,100]` is rejected with the error naming the
quality field and the range 1 to 100, and any quality inside `[1,100]`
passes with no error. -/
theorem srcValidateParams_quality (maxW maxH : ℤ) (p : ParamsOptimize)
    (hw1 : 1 ≤ p.width) (hw2 : p.width ≤ maxW)
    (hh1 : 1 ≤ p.height) (hh2 : p.height ≤ maxH) :
    (p.quality < 1 ∨ 100 < p.quality →
      srcValidateParams maxW maxH p =
        .error "quality must be between 1 and 100") ∧
    (1 ≤ p.quality ∧ p.quality ≤ 100 →
      srcValidateParams maxW maxH p = .ok p) := by
  unfold srcValidateParams
  constructor
  · intro hq
    rw [if_neg (by omega), if_neg (by omega), if_pos (by omega)]
  · intro hq
    rw [if_neg (by omega), if_neg (by omega), if_neg (by omega)]

/-- C5 witness -/
theorem srcValidateParams_quality_witness :
    srcValidateParams 1800 1800 ⟨"u", 100, 100, 0⟩ =
      .error "quality must be between 1 and 100" ∧
    srcValidateParams 1800 1800 ⟨"u", 100, 100, 80⟩ =
      .ok ⟨"u", 100, 100, 80⟩ :=
  ⟨(srcValidateParams_quality 1800 1800 _ (by decide) (by decide) (by decide)
      (by decide)).1 (by decide),
   (srcValidateParams_quality 1800 1800 _ (by decide) (by decide) (by decide)
      (by decide)).2 (by decide)⟩

/-- C6: `validateImageFile` succeeds exactly when the content-type check
and the magic-number check on the leading (up to 12) body bytes both pass,
and a body failing the magic-number check makes `Optimize` stop after the
fetch with the empty result, before any decode is attempted. -/
theorem validateImageFile_checks (env : Env) (p : ParamsOptimize)
    (u : UrlParts) (resp : HttpResp)
    (hparse : env.parseUrl p.url = some u)
    (hbuild : env.buildReq u.full = true)
    (hfetch : env.fetch u.full = some resp)
    (hstatus : resp.status = 200) :
    ((validateImageFile resp).isSome ↔
      (isImageContentType resp.contentType = true ∧
       isImageFileSignature (resp.body.take 12) = true)) ∧
    (isImageFileSignature (resp.body.take 12) = false →
      optimizeLibs env p = ([Event.fetchEv u.full], []) ∧
      Event.decodeEv ∉ (optimizeLibs env p).1) := by
  constructor
  · unfold validateImageFile
    by_cases h1 : isImageContentType resp.contentType <;>
      by_cases h2 : isImageFileSignature (resp.body.take 12) <;>
        simp [h1, h2]
  · intro hsig
    have hnone : validateImageFile resp = none := by
      unfold validateImageFile
      by_cases h1 : isImageContentType resp.contentType <;> simp [h1, hsig]
    have heq : optimizeLibs env p = ([Event.fetchEv u.full], []) := by
      unfold optimizeLibs
      rw [hparse]
      simp [hbuild, hfetch, hstatus, hnone]
    exact ⟨heq, by rw [heq]; simp⟩

/-- C6 witness: HTML bytes served as `image/png` are rejected before any
decode. -/
theorem validateImageFile_checks_witness :
    (validateImageFile ⟨200, "image/png", [60, 104, 116, 109, 108]⟩).isSome =
      false ∧
    optimizeLibs
        { parseUrl := fun s => some ⟨"lh3.googleusercontent.com", s⟩
          buildReq := fun _ => true
          fetch := fun _ => some ⟨200, "image/png", [60, 104, 116, 109, 108]⟩
          decode := fun _ => none
          encode := fun _ _ => none }
        ⟨"http://lh3.googleusercontent.com/x", 0, 0, 80⟩ =
      ([Event.fetchEv "http://lh3.googleusercontent.com/x"], []) :=
  ⟨by decide,
   ((validateImageFile_checks _
       ⟨"http://lh3.googleusercontent.com/x", 0, 0, 80⟩
       ⟨"lh3.googleusercontent.com", "http://lh3.googleusercontent.com/x"⟩
       ⟨200, "image/png", [60, 104, 116, 109, 108]⟩
       rfl rfl rfl rfl).2 (by decide)).1⟩

/-- C7: whenever `validateImageFile` succeeds, the returned reader yields
exactly the original body: the peeked bytes reattached in front of the
remaining stream are the identity on the byte stream. -/
theorem validateImageFile_roundtrip (resp : HttpResp) (body : List Nat)
    (h : validateImageFile resp = some body) : body = resp.body := by
  unfold validateImageFile at h
  split_ifs at h
  · rw [Option.some.injEq] at h
    rw [← h, List.take_append_drop]

/-- C7 witness -/
theorem validateImageFile_roundtrip_witness :
    validateImageFile
        ⟨200, "image/png", [0x89, 0x50, 0x4E, 0x47, 0, 0, 0, 0, 0, 0, 0, 0,
          1, 2, 3]⟩ =
      some [0x89, 0x50, 0x4E, 0x47, 0, 0, 0, 0, 0, 0, 0, 0, 1, 2, 3] ∧
    ([0x89, 0x50, 0x4E, 0x47, 0, 0, 0, 0, 0, 0, 0, 0, 1, 2, 3] : List Nat) =
      (HttpResp.mk 200 "image/png"
        [0x89, 0x50, 0x4E, 0x47, 0, 0, 0, 0, 0, 0, 0, 0, 1, 2, 3]).body :=
  ⟨by decide,
   validateImageFile_roundtrip
     ⟨200, "image/png", [0x89, 0x50, 0x4E, 0x47, 0, 0, 0, 0, 0, 0, 0, 0,
       1, 2, 3]⟩ _ (by decide)⟩

/-- Nodup and membership invariant of folding the origin-append step: the
result extends the accumulator with exactly the distinct non-empty trimmed
tokens not already present. -/
lemma originStep_foldl_spec (l : List String) (acc : List String)
    (hnd : acc.Nodup) :
    (l.foldl originStep acc).Nodup ∧
    ∀ t, t ∈ l.foldl originStep acc ↔
      t ∈ acc ∨ (t ≠ "" ∧ t ∈ l.map strTrim) := by
  induction l generalizing acc with
  | nil => simpa using hnd
  | cons x xs ih =>
    simp only [List.foldl_cons, List.map_cons]
    by_cases hx : strTrim x ≠ "" ∧ strTrim x ∉ acc
    · have hstep : originStep acc x = acc ++ [strTrim x] := by
        unfold originStep
        rw [if_pos hx]
      rw [hstep]
      have hnd' : (acc ++ [strTrim x]).Nodup := by
        simp [List.nodup_append, hnd, hx.2]
      obtain ⟨h1, h2⟩ := ih (acc ++ [strTrim x]) hnd'
      refine ⟨h1, fun t => ?_⟩
      rw [h2 t]
      simp only [List.mem_append, List.mem_cons, List.not_mem_nil, or_false]
      constructor
      · rintro ((ht | ht) | ⟨hne, ht⟩)
        · exact Or.inl ht
        · exact Or.inr ⟨ht ▸ hx.1, Or.inl ht⟩
        · exact Or.inr ⟨hne, Or.inr ht⟩
      · rintro (ht | ⟨hne, (ht | ht)⟩)
        · exact Or.inl (Or.inl ht)
        · exact Or.inl (Or.inr ht)
        · exact Or.inr ⟨hne, ht⟩
    · have hstep : originStep acc x = acc := by
        unfold originStep
        rw [if_neg hx]
      rw [hstep]
      push_neg at hx
      obtain ⟨h1, h2⟩ := ih acc hnd
      refine ⟨h1, fun t => ?_⟩
      rw [h2 t]
      simp only [List.mem_cons]
      constructor
      · rintro (ht | ⟨hne, ht⟩)
        · exact Or.inl ht
        · exact Or.inr ⟨hne, Or.inr ht⟩
      · rintro (ht | ⟨hne, (ht | ht)⟩)
        · exact Or.inl ht
        · exact Or.inl (ht ▸ hx (ht ▸ hne))
        · exact Or.inr ⟨hne, ht⟩

/-- C8 (amended): the libs-variant allow-list initialization contains the
default entry, contains each distinct trimmed non-empty comma-separated
token of the environment value exactly once (no duplicates anywhere in the
list), and contains nothing else. -/
theorem libsInitOrigins_spec (envOrigins : String) :
    defaultOrigin ∈ libsInitOrigins envOrigins ∧
    (libsInitOrigins envOrigins).Nodup ∧
    ∀ t, t ∈ libsInitOrigins envOrigins ↔
      (t = defaultOrigin ∨
       (envOrigins ≠ "" ∧ t ≠ "" ∧
        t ∈ (strSplitOn envOrigins ',').map strTrim)) := by
  by_cases he : envOrigins = ""
  · subst he
    refine ⟨by simp [libsInitOrigins], by simp [libsInitOrigins],
      fun t => ?_⟩
    simp [libsInitOrigins]
  · have hbase : ([defaultOrigin] : List String).Nodup := by simp
    obtain ⟨h1, h2⟩ :=
      originStep_foldl_spec (strSplitOn envOrigins ',') [defaultOrigin] hbase
    unfold libsInitOrigins
    rw [if_neg he]
    refine ⟨?_, h1, fun t => ?_⟩
    · rw [h2]
      simp
    · rw [h2]
      simp [he]

/-- C8 counterexample: the `GetAppEnv` variant of the initialization keeps
the raw untrimmed tokens alongside the appended trimmed copies, so for
`ALLOWED_ORIGINS = " a ,a"` the list is `[" a ", "a", "a", "a"]`: it has
duplicates, keeps an untrimmed entry, and contains no default entry —
refuting the claim as stated for that variant. -/
theorem getAppEnvOrigins_counterexample :
    getAppEnvOrigins " a ,a" = [" a ", "a", "a", "a"] ∧
    ¬ (getAppEnvOrigins " a ,a").Nodup ∧
    defaultOrigin ∉ getAppEnvOrigins " a ,a" ∧
    " a " ∈ getAppEnvOrigins " a ,a" := by decide

/-- C9 (amended): in the libs variant of `Optimize` — the only variant
with a status-code check — a network error or timeout (`fetch = none`) or
a non-200 status each make `Optimize` return the empty result with exactly
one fetch issued and no decode attempted; and no run of `Optimize` ever
issues the same fetch twice (no retries).  The src variant performs no
status check, see the non-200 decode example below. -/
theorem optimizeLibs_fetch_terminal (env : Env) (p : ParamsOptimize)
    (u : UrlParts) (hparse : env.parseUrl p.url = some u)
    (hbuild : env.buildReq u.full = true) :
    (env.fetch u.full = none →
      optimizeLibs env p = ([Event.fetchEv u.full], []) ∧
      Event.decodeEv ∉ (optimizeLibs env p).1 ∧
      (optimizeLibs env p).1.count (Event.fetchEv u.full) = 1) ∧
    (∀ resp, env.fetch u.full = some resp → resp.status ≠ 200 →
      optimizeLibs env p = ([Event.fetchEv u.full], []) ∧
      Event.decodeEv ∉ (optimizeLibs env p).1 ∧
      (optimizeLibs env p).1.count (Event.fetchEv u.full) = 1) ∧
    (∀ s, (optimizeLibs env p).1.count (Event.fetchEv s) ≤ 1) := by
  refine ⟨?_, ?_, ?_⟩
  · intro hf
    have heq : optimizeLibs env p = ([Event.fetchEv u.full], []) := by
      unfold optimizeLibs
      rw [hparse]
      simp [hbuild, hf]
    exact ⟨heq, by rw [heq]; simp, by rw [heq]; simp⟩
  · intro resp hf hst
    have heq : optimizeLibs env p = ([Event.fetchEv u.full], []) := by
      unfold optimizeLibs
      rw [hparse]
      simp [hbuild, hf, hst]
    exact ⟨heq, by rw [heq]; simp, by rw [heq]; simp⟩
  · intro s
    have hle : ∀ a : String,
        List.count (Event.fetchEv s) [Event.fetchEv a] ≤ 1 ∧
        List.count (Event.fetchEv s) [Event.fetchEv a, Event.decodeEv] ≤ 1 ∧
        List.count (Event.fetchEv s)
          [Event.fetchEv a, Event.decodeEv, Event.encodeEv] ≤ 1 := by
      intro a
      by_cases has : a = s
      · subst has
        refine ⟨?_, ?_, ?_⟩ <;> simp [List.count_cons]
      · refine ⟨?_, ?_, ?_⟩ <;> simp [List.count_cons, has]
    rcases hf : env.fetch u.full with _ | resp
    · have heq : optimizeLibs env p = ([Event.fetchEv u.full], []) := by
        unfold optimizeLibs
        rw [hparse]
        simp [hbuild, hf]
      rw [heq]
      exact (hle u.full).1
    · by_cases hst : resp.status = 200
      · rcases hv : validateImageFile resp with _ | b
        · have heq : optimizeLibs env p = ([Event.fetchEv u.full], []) := by
            unfold optimizeLibs
            rw [hparse]
            simp [hbuild, hf, hst, hv]
          rw [heq]
          exact (hle u.full).1
        · rcases hd : env.decode b with _ | img
          · have heq : optimizeLibs env p =
                ([Event.fetchEv u.full, Event.decodeEv], []) := by
              unfold optimizeLibs
              rw [hparse]
              simp [hbuild, hf, hst, hv, hd]
            rw [heq]
            exact (hle u.full).2.1
          · rcases he : env.encode (optimizedImage img p) p.quality with
              _ | bytes
            · have heq : optimizeLibs env p =
                  ([Event.fetchEv u.full, Event.decodeEv, Event.encodeEv],
                   []) := by
                unfold optimizeLibs
                rw [hparse]
                simp [hbuild, hf, hst, hv, hd, he]
              rw [heq]
              exact (hle u.full).2.2
            · have heq : optimizeLibs env p =
                  ([Event.fetchEv u.full, Event.decodeEv, Event.encodeEv],
                   bytes) := by
                unfold optimizeLibs
                rw [hparse]
                simp [hbuild, hf, hst, hv, hd, he]
              rw [heq]
              exact (hle u.full).2.2
      · have heq : optimizeLibs env p = ([Event.fetchEv u.full], []) := by
          unfold optimizeLibs
          rw [hparse]
          simp [hbuild, hf, hst]
        rw [heq]
        exact (hle u.full).1

/-- C9 witness: a 404 response terminates the request with the empty
result after a single fetch. -/
theorem optimizeLibs_fetch_terminal_witness :
    optimizeLibs
        { parseUrl := fun s => some ⟨"lh3.googleusercontent.com", s⟩
          buildReq := fun _ => true
          fetch := fun _ => some ⟨404, "text/html", []⟩
          decode := fun _ => none
          encode := fun _ _ => none }
        ⟨"http://lh3.googleusercontent.com/x", 0, 0, 80⟩ =
      ([Event.fetchEv "http://lh3.googleusercontent.com/x"], []) :=
  ((optimizeLibs_fetch_terminal _
      ⟨"http://lh3.googleusercontent.com/x", 0, 0, 80⟩
      ⟨"lh3.googleusercontent.com", "http://lh3.googleusercontent.com/x"⟩
      rfl rfl).2.1 ⟨404, "text/html", []⟩ rfl (by decide)).1

/-- C9 counterexample: the src variant of `Optimize`
(`src/image-optimizer.go`) never checks the HTTP status code: an allowed
host whose fetch returns a 404 response proceeds straight to decode — the
trace contains a decode event — and, when the body decodes, `Optimize`
even returns a non-empty result.  This refutes, for that cited variant,
"any non-200 HTTP status ... returns the empty/error result without
attempting decode". -/
theorem optimizeSrc_non200_decoded :
    optimizeSrc srcAllowedOrigins
        { parseUrl := fun s => some ⟨"tarkams.com", s⟩
          buildReq := fun _ => true
          fetch := fun _ => some ⟨404, "text/html", [1, 2, 3]⟩
          decode := fun _ => some ⟨1, 1⟩
          encode := fun _ _ => some [9, 9, 9] }
        ⟨"http://tarkams.com/a.png", 0, 0, 80⟩ =
      ([Event.fetchEv "http://tarkams.com/a.png", Event.decodeEv,
        Event.encodeEv], [9, 9, 9]) ∧
    Event.decodeEv ∈
      [Event.fetchEv "http://tarkams.com/a.png", Event.decodeEv,
        Event.encodeEv] ∧
    ([9, 9, 9] : List Nat) ≠ [] :=
  ⟨rfl, by decide, by decide⟩

/-- C10: every failure cause inside the `src` `Optimize` — unparseable URL,
disallowed origin, fetch error, decode error, encode error — yields the
identical empty byte slice, so causes are indistinguishable from the
return value; the `src/main.go` handler tail maps the empty slice to an
HTTP 200 response with `image/webp`, one-year cache headers, and the
base64 encoding of the empty slice (the empty string), while the part_005
handler maps it to a 400 `application/json` error. -/
theorem optimize_failures_indistinguishable (allowed : List String)
    (env : Env) (p : ParamsOptimize) :
    (env.parseUrl p.url = none → (optimizeSrc allowed env p).2 = []) ∧
    (∀ u, env.parseUrl p.url = some u → u.host ∉ allowed →
      (optimizeSrc allowed env p).2 = []) ∧
    (∀ u, env.parseUrl p.url = some u → env.fetch u.full = none →
      (optimizeSrc allowed env p).2 = []) ∧
    (∀ u resp, env.parseUrl p.url = some u → env.fetch u.full = some resp →
      env.decode resp.body = none → (optimizeSrc allowed env p).2 = []) ∧
    (∀ u resp img, env.parseUrl p.url = some u →
      env.fetch u.full = some resp → env.decode resp.body = some img →
      env.encode (optimizedImage img p) p.quality = none →
      (optimizeSrc allowed env p).2 = []) ∧
    srcHandlerRespond [] =
      { statusCode := 200, body := "", isBase64Encoded := true,
        contentType := "image/webp",
        cacheControl := "public, max-age=31536000, s-maxage=31536000" } ∧
    (part005HandlerRespond []).statusCode = 400 ∧
    (part005HandlerRespond []).contentType = "application/json" := by
  refine ⟨?_, ?_, ?_, ?_, ?_, rfl, rfl, rfl⟩
  · intro hp
    unfold optimizeSrc
    rw [hp]
  · intro u hp hh
    unfold optimizeSrc
    rw [hp]
    simp [hh]
  · intro u hp hf
    unfold optimizeSrc
    rw [hp]
    by_cases hh : u.host ∈ allowed
    · simp [hh, hf]
    · simp [hh]
  · intro u resp hp hf hd
    unfold optimizeSrc
    rw [hp]
    by_cases hh : u.host ∈ allowed
    · simp [hh, hf, hd]
    · simp [hh]
  · intro u resp img hp hf hd he
    unfold optimizeSrc
    rw [hp]
    by_cases hh : u.host ∈ allowed
    · simp [hh, hf, hd, he]
    · simp [hh]

/-- C10 witness: an unparseable URL produces the empty slice. -/
theorem optimize_failures_indistinguishable_witness :
    (optimizeSrc srcAllowedOrigins
      { parseUrl := fun _ => none
        buildReq := fun _ => true
        fetch := fun _ => none
        decode := fun _ => none
        encode := fun _ _ => none }
      ⟨"::bad url::", 0, 0, 80⟩).2 = [] :=
  (optimize_failures_indistinguishable srcAllowedOrigins _ _).1 rfl

end ImgOp
